import Mathlib

/-!
# SSLSessionPersistentCacheBase

A shallow embedding of `wangle/client/ssl/SSLSessionPersistentCache-inl.h`:
the four member functions `setSSLSession`, `getSSLSession`,
`removeSSLSession` and `size` of `SSLSessionPersistentCacheBase<K>`, over
explicit state (the backing `PersistentCache`) and an explicit clock reading.

Time points of `std::chrono::system_clock` are integers counting clock ticks
since the epoch; the number of ticks in a second is a field of the cache
object (`ticksPerSecond`), since the clock's period is fixed by the platform.
The tick count of a time point is a signed 64-bit integer, so the difference
`now - addedTime` is taken in 64-bit two's complement (`wrapInt64`): where
the exact difference does not fit, the value the lookup compares is the
wrapped one.
-/

namespace wangle

/-- Serialized session bytes (`folly::fbstring`), one number per byte. -/
abbrev FbString := List Nat

/-- Reading of `std::chrono::system_clock`, in clock ticks since the epoch;
the clock holds it as a signed 64-bit tick count. -/
abbrev TimePoint := Int

/-- Value of a default-constructed `std::chrono::time_point`: the epoch. -/
def epoch : TimePoint := 0

/-- Whether `x` is a value of a signed 64-bit integer. -/
def fitsInt64 (x : Int) : Bool :=
  decide (-9223372036854775808 ≤ x) && decide (x < 9223372036854775808)

/-- The signed 64-bit integer that the exact result `x` of an addition or a
subtraction of two such integers becomes: `x` itself when it fits, and `x`
reduced modulo `2 ^ 64` into the signed range when it overflows, which is
what the compiled subtraction produces. -/
def wrapInt64 (x : Int) : Int :=
  (x + 9223372036854775808) % 18446744073709551616 - 9223372036854775808

/-- Modelled from the spec: the persisted record `SSLSessionCacheData`, whose
declaration is not among the sources. It holds the serialized payload
(`sessionData`) and the insertion timestamp (`addedTime`). -/
structure SSLSessionCacheData where
  sessionData : FbString
  addedTime : TimePoint
deriving DecidableEq, Repr

/-- State of a record declared as `SSLSessionCacheData data;`: both members
are default-constructed, an empty string and the epoch. -/
def SSLSessionCacheData.init : SSLSessionCacheData :=
  { sessionData := [], addedTime := epoch }

/-- Modelled from the spec: the native session object `SSL_SESSION`, whose
declaration is not among the sources. Only the two members that
`getSSLSession` reads are named: the session ticket length (`size_t`) and the
ticket lifetime hint in seconds (`long`); `content` stands for the rest of
the session. -/
structure SSL_SESSION where
  tlsext_ticklen : Nat
  tlsext_tick_lifetime_hint : Int
  content : List Nat
deriving DecidableEq, Repr

/-- A session handle `SSLSessionPtr`: `none` is the null pointer. -/
abbrev SSLSessionPtr := Option SSL_SESSION

/-- Modelled from the spec: the backing store `PersistentCache<K, V>`, whose
implementation is not among the sources. It is a capacity-bounded key-value
store offering `put`, `get`, `remove` and `size`. The records are kept most
recently written first. -/
structure PersistentCache (K V : Type) where
  capacity : Nat
  entries : List (K × V)
deriving DecidableEq, Repr

namespace PersistentCache

variable {K V : Type} [DecidableEq K]

/-- Modelled from the spec: `get(key) -> record?`, a read of the record
stored under `key`. -/
def get (cache : PersistentCache K V) (key : K) : Option V :=
  cache.entries.lookup key

/-- Modelled from the spec: `put(key, record)` stores a copy of `record`
under `key` and overwrites any prior record for that key. The record just
written is always kept; when the capacity bound would be exceeded the oldest
other records are evicted. -/
def put (cache : PersistentCache K V) (key : K) (val : V) : PersistentCache K V :=
  { cache with
    entries :=
      (key, val) :: ((cache.entries.filter (fun e => !(e.1 == key))).take (cache.capacity - 1)) }

/-- Modelled from the spec: `remove(key) -> bool` deletes any record for
`key` and returns whether a record existed. -/
def remove (cache : PersistentCache K V) (key : K) : Bool × PersistentCache K V :=
  (cache.entries.any (fun e => e.1 == key),
   { cache with entries := cache.entries.filter (fun e => !(e.1 == key)) })

/-- Modelled from the spec: `size() -> integer`, the number of records
held. -/
def size (cache : PersistentCache K V) : Nat :=
  cache.entries.length

/-- Number of records held under `key`. -/
def countKey (cache : PersistentCache K V) (key : K) : Nat :=
  (cache.entries.filter (fun e => e.1 == key)).length

end PersistentCache

/-- The members of `SSLSessionPersistentCacheBase<K>` that are fixed at
construction, together with the collaborators its member functions call and
that are not among the sources: the key derivation `getKey`, the codec
(`sessionToFbString`, `fbStringToSession`), the build flag `OPENSSL_TICKETS`
(a session has a ticket length and a lifetime hint only in builds where it is
set) and the tick rate of the clock, a positive number fixed by the platform.
The object's `persistentCache_` is the state
that the operations below take and return; `timeUtil_->now()` is their
argument `now`. -/
structure SSLSessionPersistentCacheBase (K : Type) where
  enableTicketLifetimeExpiration_ : Bool
  getKey : String → K
  sessionToFbString : SSL_SESSION → Option FbString
  fbStringToSession : FbString → SSLSessionPtr
  OPENSSL_TICKETS : Bool
  ticksPerSecond : Nat

namespace SSLSessionPersistentCacheBase

variable {K : Type} [DecidableEq K]

/-- The local `data` of `setSSLSession` at the moment it is handed to
`put`: default-constructed, with only `sessionData` assigned. -/
def dataAtPut (sessionData : FbString) : SSLSessionCacheData :=
  { SSLSessionCacheData.init with sessionData := sessionData }

/-- Embedding of `setSSLSession(hostname, session)` with the clock reading
`now`. The record is handed to `put` before `data.addedTime` is assigned, so
the assignment reaches only the local, which goes out of scope. -/
def setSSLSession (c : SSLSessionPersistentCacheBase K) (now : TimePoint)
    (hostname : String) (session : SSLSessionPtr)
    (persistentCache : PersistentCache K SSLSessionCacheData) :
    PersistentCache K SSLSessionCacheData :=
  match session with
  | none => persistentCache
  | some s =>
    match c.sessionToFbString s with
    | none => persistentCache
    | some sessionData =>
      let data := dataAtPut sessionData
      let key := c.getKey hostname
      let persistentCache := persistentCache.put key data
      let _data : SSLSessionCacheData := { data with addedTime := now }
      persistentCache

/-- The value `duration_cast<seconds>(now - addedTime)`: the elapsed ticks,
a signed 64-bit difference of the two tick counts, divided by the tick rate
and rounded toward zero. -/
def secsBetween (c : SSLSessionPersistentCacheBase K) (now addedTime : TimePoint) : Int :=
  Int.tdiv (wrapInt64 (now - addedTime)) (c.ticksPerSecond : Int)

/-- Embedding of `getSSLSession(hostname)` with the clock reading `now`.
Returns the handle and the backing store as the call leaves it. -/
def getSSLSession (c : SSLSessionPersistentCacheBase K) (now : TimePoint)
    (hostname : String)
    (persistentCache : PersistentCache K SSLSessionCacheData) :
    SSLSessionPtr × PersistentCache K SSLSessionCacheData :=
  let key := c.getKey hostname
  match persistentCache.get key with
  | none => (none, persistentCache)
  | some value =>
    let sess := c.fbStringToSession value.sessionData
    match sess with
    | none => (sess, persistentCache)
    | some s =>
      if c.OPENSSL_TICKETS && c.enableTicketLifetimeExpiration_
          && decide (s.tlsext_ticklen > 0) && decide (s.tlsext_tick_lifetime_hint > 0) then
        if c.secsBetween now value.addedTime ≥ s.tlsext_tick_lifetime_hint then
          (none, persistentCache)
        else
          (sess, persistentCache)
      else
        (sess, persistentCache)

/-- Embedding of `removeSSLSession(hostname)`. -/
def removeSSLSession (c : SSLSessionPersistentCacheBase K) (hostname : String)
    (persistentCache : PersistentCache K SSLSessionCacheData) :
    Bool × PersistentCache K SSLSessionCacheData :=
  let key := c.getKey hostname
  persistentCache.remove key

/-- Embedding of `size()`. -/
def size (_c : SSLSessionPersistentCacheBase K)
    (persistentCache : PersistentCache K SSLSessionCacheData) : Nat :=
  persistentCache.size

/-- Whether the codec reconstructs from `payload` a session that it
serializes back to the same bytes. -/
def reconstructs (c : SSLSessionPersistentCacheBase K) (payload : FbString) : Bool :=
  match c.fbStringToSession payload with
  | none => false
  | some s => c.sessionToFbString s == some payload

/-- A call on the cache object, with the clock reading at the call:
`store` is `setSSLSession`, `lookup` is `getSSLSession` and `evict` is
`removeSSLSession`. -/
inductive Call where
  | store (now : TimePoint) (hostname : String) (session : SSLSessionPtr)
  | lookup (now : TimePoint) (hostname : String)
  | evict (hostname : String)
deriving DecidableEq, Repr

/-- The backing store as one call leaves it. -/
def applyCall (c : SSLSessionPersistentCacheBase K) :
    Call → PersistentCache K SSLSessionCacheData → PersistentCache K SSLSessionCacheData
  | Call.store now hostname session, cache => c.setSSLSession now hostname session cache
  | Call.lookup now hostname, cache => (c.getSSLSession now hostname cache).2
  | Call.evict hostname, cache => (c.removeSSLSession hostname cache).2

/-- The backing store as a sequence of calls, made in order, leaves it. -/
def runCalls (c : SSLSessionPersistentCacheBase K) (calls : List Call)
    (cache : PersistentCache K SSLSessionCacheData) : PersistentCache K SSLSessionCacheData :=
  calls.foldl (fun st call => c.applyCall call st) cache

/-- The same cache object with lifetime expiration switched off. -/
def ignoringExpiration (c : SSLSessionPersistentCacheBase K) : SSLSessionPersistentCacheBase K :=
  { c with enableTicketLifetimeExpiration_ := false }

/-- Whether a lookup of `hostname` that ignores expiration returns a present
session. -/
def resolves (c : SSLSessionPersistentCacheBase K) (now : TimePoint) (hostname : String)
    (cache : PersistentCache K SSLSessionCacheData) : Bool :=
  (c.ignoringExpiration.getSSLSession now hostname cache).1.isSome

/-- What holds of every backing store that calls on the cache object build
from an empty one: no two records share a key, and every record sits under
the key of some host name and carries a payload that the codec produced. -/
def StoreInv (c : SSLSessionPersistentCacheBase K)
    (cache : PersistentCache K SSLSessionCacheData) : Prop :=
  (cache.entries.map Prod.fst).Nodup
  ∧ ∀ e ∈ cache.entries,
      (∃ hostname, c.getKey hostname = e.1)
      ∧ ∃ s, c.sessionToFbString s = some e.2.sessionData

end SSLSessionPersistentCacheBase

/-! ## A concrete cache object, used to evaluate the operations -/

/-- A codec for evaluation: a session is written as its ticket length, its
lifetime hint and its content; a session with a negative hint is not
serializable. -/
def sampleSerialize (s : SSL_SESSION) : Option FbString :=
  if s.tlsext_tick_lifetime_hint < 0 then none
  else some (s.tlsext_ticklen :: s.tlsext_tick_lifetime_hint.toNat :: s.content)

/-- The inverse of `sampleSerialize`; fewer than two bytes do not make a
session. -/
def sampleDeserialize : FbString → SSLSessionPtr
  | n :: l :: rest => some { tlsext_ticklen := n, tlsext_tick_lifetime_hint := (l : Int), content := rest }
  | _ => none

/-- A cache object keyed by the host name itself, with a clock that ticks
once per second and ticket support compiled in. -/
def sampleCache (doTicketLifetimeExpiration : Bool) : SSLSessionPersistentCacheBase String :=
  { enableTicketLifetimeExpiration_ := doTicketLifetimeExpiration
    getKey := fun hostname => hostname
    sessionToFbString := sampleSerialize
    fbStringToSession := sampleDeserialize
    OPENSSL_TICKETS := true
    ticksPerSecond := 1 }

/-- A session with a one-byte ticket and a lifetime hint of ten seconds. -/
def sampleSession : SSL_SESSION :=
  { tlsext_ticklen := 1, tlsext_tick_lifetime_hint := 10, content := [7, 7] }

/-- A second session, with a different content. -/
def otherSession : SSL_SESSION :=
  { tlsext_ticklen := 1, tlsext_tick_lifetime_hint := 10, content := [8] }

/-- A session that `sampleSerialize` rejects. -/
def badSession : SSL_SESSION :=
  { tlsext_ticklen := 1, tlsext_tick_lifetime_hint := -1, content := [] }

/-- An empty backing store with room for four records. -/
def emptyStore : PersistentCache String SSLSessionCacheData :=
  { capacity := 4, entries := [] }

/-- A backing store holding one record, for host `a`, written at tick 100. -/
def oneStore : PersistentCache String SSLSessionCacheData :=
  { capacity := 4, entries := [("a", { sessionData := [1, 10, 7, 7], addedTime := 100 })] }

/-- The store `oneStore` with the timestamp of its record changed to tick
999. -/
def retimedStore : PersistentCache String SSLSessionCacheData :=
  { capacity := 4, entries := [("a", { sessionData := [1, 10, 7, 7], addedTime := 999 })] }

/-- A backing store whose record for host `a` carries the least timestamp a
64-bit tick count can hold. -/
def ancientStore : PersistentCache String SSLSessionCacheData :=
  { capacity := 4,
    entries := [("a", { sessionData := [1, 10, 7, 7], addedTime := -9223372036854775808 })] }

/-- A backing store whose record for host `a` is stamped 100 ticks after the
least timestamp a 64-bit tick count can hold. -/
def agedStore : PersistentCache String SSLSessionCacheData :=
  { capacity := 4,
    entries := [("a", { sessionData := [1, 10, 7, 7], addedTime := -9223372036854775708 })] }

/-- A backing store whose record for host `a` has a one-byte payload, which
`sampleDeserialize` rejects. -/
def brokenStore : PersistentCache String SSLSessionCacheData :=
  { capacity := 4, entries := [("a", { sessionData := [5], addedTime := 100 })] }

/-- A sequence of calls: two stores, a lookup, an eviction and an
overwrite. -/
def sampleCalls : List SSLSessionPersistentCacheBase.Call :=
  [ SSLSessionPersistentCacheBase.Call.store 100 "a" (some sampleSession),
    SSLSessionPersistentCacheBase.Call.store 101 "b" (some otherSession),
    SSLSessionPersistentCacheBase.Call.lookup 200 "a",
    SSLSessionPersistentCacheBase.Call.evict "a",
    SSLSessionPersistentCacheBase.Call.store 300 "b" (some sampleSession),
    SSLSessionPersistentCacheBase.Call.store 301 "c" (some badSession) ]

end wangle

/-! ## The backing store: what `get` sees after `put` and `remove` -/

namespace wangle

namespace PersistentCache

variable {K V : Type} [DecidableEq K]

theorem lookup_cons_self (k : K) (b : V) (es : List (K × V)) :
    List.lookup k ((k, b) :: es) = some b := by
  simp [List.lookup_cons]

theorem lookup_cons_ne {k a : K} (b : V) (es : List (K × V)) (hne : k ≠ a) :
    List.lookup k ((a, b) :: es) = List.lookup k es := by
  have hb : (k == a) = false := by simpa using hne
  rw [List.lookup_cons, hb]

theorem lookup_filter_self (es : List (K × V)) (k : K) :
    List.lookup k (es.filter (fun e => !(e.1 == k))) = none := by
  induction es with
  | nil => rfl
  | cons e es ih =>
    obtain ⟨a, b⟩ := e
    by_cases hk : a = k
    · simp [List.filter_cons, hk, ih]
    · have hk' : k ≠ a := fun h => hk h.symm
      simp [List.filter_cons, hk, lookup_cons_ne b _ hk', ih]

theorem lookup_filter_ne (es : List (K × V)) {k k' : K} (hne : k' ≠ k) :
    List.lookup k' (es.filter (fun e => !(e.1 == k))) = List.lookup k' es := by
  induction es with
  | nil => rfl
  | cons e es ih =>
    obtain ⟨a, b⟩ := e
    by_cases hk : a = k
    · have hk' : k' ≠ a := fun h => hne (h.trans hk)
      simp [List.filter_cons, hk, ih]
      rw [lookup_cons_ne b es hne]
    · by_cases hka : k' = a
      · subst hka
        simp [List.filter_cons, hk, lookup_cons_self]
      · simp [List.filter_cons, hk, lookup_cons_ne b _ hka, ih]

theorem any_key_eq_isSome_lookup (es : List (K × V)) (k : K) :
    es.any (fun e => e.1 == k) = (List.lookup k es).isSome := by
  induction es with
  | nil => rfl
  | cons e es ih =>
    obtain ⟨a, b⟩ := e
    by_cases hk : a = k
    · subst hk
      simp [lookup_cons_self]
    · have hk' : k ≠ a := fun h => hk h.symm
      rw [List.any_cons, ih, lookup_cons_ne b es hk']
      simp [hk]

theorem filter_key_eq_self (es : List (K × V)) (k : K) (hnone : List.lookup k es = none) :
    es.filter (fun e => !(e.1 == k)) = es := by
  induction es with
  | nil => rfl
  | cons e es ih =>
    obtain ⟨a, b⟩ := e
    by_cases hk : k = a
    · subst hk
      rw [lookup_cons_self] at hnone
      cases hnone
    · have hk' : ¬ a = k := fun h => hk h.symm
      rw [lookup_cons_ne b es hk] at hnone
      rw [List.filter_cons, ih hnone]
      simp [hk']

theorem filter_key_filter_ne (es : List (K × V)) (k : K) :
    (es.filter (fun e => !(e.1 == k))).filter (fun e => e.1 == k) = [] := by
  induction es with
  | nil => rfl
  | cons e es ih =>
    obtain ⟨a, b⟩ := e
    by_cases hk : a = k
    · simp [List.filter_cons, hk]
    · simp [List.filter_cons, hk]

theorem get_put_self (cache : PersistentCache K V) (k : K) (v : V) :
    (cache.put k v).get k = some v := by
  simp [get, put, List.lookup_cons]

theorem get_put_ne (cache : PersistentCache K V) {k k' : K} (v : V) (hne : k' ≠ k)
    (hroom : cache.entries.length < cache.capacity) :
    (cache.put k v).get k' = cache.get k' := by
  have hlen : (cache.entries.filter (fun e => !(e.1 == k))).length ≤ cache.capacity - 1 :=
    le_trans (List.length_filter_le _ _) (by omega)
  simp only [get, put]
  rw [List.take_of_length_le hlen, List.lookup_cons]
  have hb : (k' == k) = false := by simpa using hne
  rw [hb]
  exact lookup_filter_ne cache.entries hne

theorem countKey_put (cache : PersistentCache K V) (k : K) (v : V) :
    (cache.put k v).countKey k = 1 := by
  have hsub : List.Sublist
      ((cache.entries.filter (fun e => !(e.1 == k))).take (cache.capacity - 1))
      (cache.entries.filter (fun e => !(e.1 == k))) := List.take_sublist _ _
  have hnil : ((cache.entries.filter (fun e => !(e.1 == k))).take (cache.capacity - 1)).filter
      (fun e => e.1 == k) = [] := by
    have h2 := hsub.filter (fun e : K × V => e.1 == k)
    rw [filter_key_filter_ne] at h2
    exact List.sublist_nil.mp h2
  simp [countKey, put, List.filter_cons, hnil]

theorem get_remove_self (cache : PersistentCache K V) (k : K) :
    (cache.remove k).2.get k = none := by
  simp [get, remove, lookup_filter_self]

theorem get_remove_ne (cache : PersistentCache K V) {k k' : K} (hne : k' ≠ k) :
    (cache.remove k).2.get k' = cache.get k' := by
  simp only [get, remove]
  exact lookup_filter_ne cache.entries hne

theorem remove_fst (cache : PersistentCache K V) (k : K) :
    (cache.remove k).1 = (cache.get k).isSome := by
  simp only [get, remove]
  exact any_key_eq_isSome_lookup cache.entries k

theorem remove_absent (cache : PersistentCache K V) (k : K) (hnone : cache.get k = none) :
    (cache.remove k).2 = cache := by
  cases cache with
  | mk cap es =>
    simp only [get] at hnone
    simp [remove, filter_key_eq_self es k hnone]

end PersistentCache

end wangle

/-! ## The cache operations -/

namespace wangle

namespace SSLSessionPersistentCacheBase

variable {K : Type} [DecidableEq K]

theorem setSSLSession_serialized (c : SSLSessionPersistentCacheBase K) (now : TimePoint)
    (hostname : String) (s : SSL_SESSION) (payload : FbString)
    (cache : PersistentCache K SSLSessionCacheData)
    (hser : c.sessionToFbString s = some payload) :
    c.setSSLSession now hostname (some s) cache
      = cache.put (c.getKey hostname) (dataAtPut payload) := by
  simp [setSSLSession, hser]

theorem setSSLSession_record (c : SSLSessionPersistentCacheBase K) (now : TimePoint)
    (hostname : String) (s : SSL_SESSION) (payload : FbString)
    (cache : PersistentCache K SSLSessionCacheData)
    (hser : c.sessionToFbString s = some payload) :
    (c.setSSLSession now hostname (some s) cache).get (c.getKey hostname)
      = some { sessionData := payload, addedTime := epoch } := by
  rw [setSSLSession_serialized c now hostname s payload cache hser,
    PersistentCache.get_put_self]
  rfl

theorem getSSLSession_snd (c : SSLSessionPersistentCacheBase K) (now : TimePoint)
    (hostname : String) (cache : PersistentCache K SSLSessionCacheData) :
    (c.getSSLSession now hostname cache).2 = cache := by
  unfold getSSLSession
  simp only []
  split
  · rfl
  · split
    · rfl
    · split
      · split <;> rfl
      · rfl

theorem getSSLSession_absent (c : SSLSessionPersistentCacheBase K) (now : TimePoint)
    (hostname : String) (cache : PersistentCache K SSLSessionCacheData)
    (hnone : cache.get (c.getKey hostname) = none) :
    (c.getSSLSession now hostname cache).1 = none := by
  simp [getSSLSession, hnone]

theorem getSSLSession_congr (c : SSLSessionPersistentCacheBase K) (now : TimePoint)
    (hostname : String) (cache cache' : PersistentCache K SSLSessionCacheData)
    (hget : cache'.get (c.getKey hostname) = cache.get (c.getKey hostname)) :
    (c.getSSLSession now hostname cache').1 = (c.getSSLSession now hostname cache).1 := by
  unfold getSSLSession
  simp only [hget]
  split
  · rfl
  · split
    · rfl
    · split
      · split <;> rfl
      · rfl

theorem getSSLSession_disabled (c : SSLSessionPersistentCacheBase K) (now : TimePoint)
    (hostname : String) (cache : PersistentCache K SSLSessionCacheData)
    (value : SSLSessionCacheData)
    (hoff : c.enableTicketLifetimeExpiration_ = false)
    (hrec : cache.get (c.getKey hostname) = some value) :
    (c.getSSLSession now hostname cache).1 = c.fbStringToSession value.sessionData := by
  unfold getSSLSession
  simp only [hrec, hoff]
  cases hs : c.fbStringToSession value.sessionData with
  | none => rfl
  | some s => simp

theorem wrapInt64_of_fits (x : Int) (hfit : fitsInt64 x = true) : wrapInt64 x = x := by
  simp only [fitsInt64, Bool.and_eq_true, decide_eq_true_eq] at hfit
  obtain ⟨hlo, hhi⟩ := hfit
  unfold wrapInt64
  rw [Int.emod_eq_of_lt (by omega) (by omega)]
  omega

omit [DecidableEq K] in
theorem secsBetween_of_fits (c : SSLSessionPersistentCacheBase K) (now addedTime : TimePoint)
    (hfit : fitsInt64 (now - addedTime) = true) :
    c.secsBetween now addedTime = Int.tdiv (now - addedTime) (c.ticksPerSecond : Int) := by
  unfold secsBetween
  rw [wrapInt64_of_fits _ hfit]

theorem getSSLSession_expiry_cases (c : SSLSessionPersistentCacheBase K) (now : TimePoint)
    (hostname : String) (cache : PersistentCache K SSLSessionCacheData)
    (value : SSLSessionCacheData) (s : SSL_SESSION)
    (hrec : cache.get (c.getKey hostname) = some value)
    (hsess : c.fbStringToSession value.sessionData = some s) :
    ((c.OPENSSL_TICKETS = true ∧ c.enableTicketLifetimeExpiration_ = true
        ∧ 0 < s.tlsext_ticklen ∧ 0 < s.tlsext_tick_lifetime_hint) →
      ((c.getSSLSession now hostname cache).1 = none ↔
        s.tlsext_tick_lifetime_hint ≤ c.secsBetween now value.addedTime))
    ∧ ((c.OPENSSL_TICKETS = false ∨ c.enableTicketLifetimeExpiration_ = false
        ∨ s.tlsext_ticklen = 0 ∨ s.tlsext_tick_lifetime_hint ≤ 0
        ∨ c.secsBetween now value.addedTime < s.tlsext_tick_lifetime_hint) →
      (c.getSSLSession now hostname cache).1 = some s) := by
  constructor
  · rintro ⟨htick, hon, hlen, hhint⟩
    unfold getSSLSession
    simp only [hrec, hsess, htick, hon]
    by_cases hexp : s.tlsext_tick_lifetime_hint ≤ c.secsBetween now value.addedTime
    · simp [hlen, hhint, hexp]
    · simp [hlen, hhint, hexp]
  · intro hcase
    unfold getSSLSession
    simp only [hrec, hsess]
    rcases hcase with h | h | h | h | h
    · simp [h]
    · simp [h]
    · simp [h]
    · have : ¬ (0 < s.tlsext_tick_lifetime_hint) := not_lt.mpr h
      simp [this]
    · have : ¬ (s.tlsext_tick_lifetime_hint ≤ c.secsBetween now value.addedTime) :=
        not_le.mpr h
      split
      · simp [this]
      · rfl

/-- Claim C4, as amended. Expiry decision rule of `getSSLSession`. Let the
backing store hold a record `value` under the key of `hostname`, and let its
payload deserialize to a present session `s`. In a build with ticket
support, with lifetime expiration enabled, a ticket length above zero and a
lifetime hint `L` above zero, and with an elapsed tick count
`now - value.addedTime` that fits a signed 64-bit integer, the lookup
returns no session exactly when the elapsed time, truncated to whole
seconds, is at least `L`. In every other case where the handle is present
(no ticket support, expiration disabled, ticket length zero, a hint that is
not positive, or an elapsed tick count that fits and makes fewer than `L`
seconds) the lookup returns exactly the deserialized handle. -/
theorem getSSLSession_expiry_rule (c : SSLSessionPersistentCacheBase K) (now : TimePoint)
    (hostname : String) (cache : PersistentCache K SSLSessionCacheData)
    (value : SSLSessionCacheData) (s : SSL_SESSION)
    (hrec : cache.get (c.getKey hostname) = some value)
    (hsess : c.fbStringToSession value.sessionData = some s) :
    ((c.OPENSSL_TICKETS = true ∧ c.enableTicketLifetimeExpiration_ = true
        ∧ 0 < s.tlsext_ticklen ∧ 0 < s.tlsext_tick_lifetime_hint
        ∧ fitsInt64 (now - value.addedTime) = true) →
      ((c.getSSLSession now hostname cache).1 = none ↔
        s.tlsext_tick_lifetime_hint
          ≤ Int.tdiv (now - value.addedTime) (c.ticksPerSecond : Int)))
    ∧ ((c.OPENSSL_TICKETS = false ∨ c.enableTicketLifetimeExpiration_ = false
        ∨ s.tlsext_ticklen = 0 ∨ s.tlsext_tick_lifetime_hint ≤ 0
        ∨ (fitsInt64 (now - value.addedTime) = true
            ∧ Int.tdiv (now - value.addedTime) (c.ticksPerSecond : Int)
                < s.tlsext_tick_lifetime_hint)) →
      (c.getSSLSession now hostname cache).1 = some s) := by
  have hcases := getSSLSession_expiry_cases c now hostname cache value s hrec hsess
  constructor
  · rintro ⟨htick, hon, hlen, hhint, hfit⟩
    rw [← secsBetween_of_fits c now value.addedTime hfit]
    exact hcases.1 ⟨htick, hon, hlen, hhint⟩
  · intro hcase
    apply hcases.2
    rcases hcase with h | h | h | h | ⟨hfit, h⟩
    · exact Or.inl h
    · exact Or.inr (Or.inl h)
    · exact Or.inr (Or.inr (Or.inl h))
    · exact Or.inr (Or.inr (Or.inr (Or.inl h)))
    · rw [← secsBetween_of_fits c now value.addedTime hfit] at h
      exact Or.inr (Or.inr (Or.inr (Or.inr h)))

/-- Witness for C4: a record written at tick 100 with a hint of ten seconds,
read at tick 110 with expiration enabled and with expiration disabled. -/
theorem getSSLSession_expiry_rule_witness :
    (((sampleCache true).getSSLSession 110 "a" oneStore).1 = none ↔
        (10 : Int) ≤ Int.tdiv (110 - 100) ((1 : Nat) : Int))
    ∧ ((sampleCache false).getSSLSession 110 "a" oneStore).1 = some sampleSession :=
  ⟨(getSSLSession_expiry_rule (sampleCache true) 110 "a" oneStore
      { sessionData := [1, 10, 7, 7], addedTime := 100 } sampleSession
      (by decide) (by decide)).1 ⟨rfl, rfl, by decide, by decide, by decide⟩,
   (getSSLSession_expiry_rule (sampleCache false) 110 "a" oneStore
      { sessionData := [1, 10, 7, 7], addedTime := 100 } sampleSession
      (by decide) (by decide)).2 (Or.inr (Or.inl rfl))⟩

/-- Counterexample to C4 as stated. The record for host `a` carries the least
64-bit timestamp, its payload deserializes to a session with ticket length
1 and hint 10, expiration is enabled and the clock reads tick 100. The
elapsed time in whole seconds is far above the hint, yet the lookup returns
the session: the 64-bit subtraction wraps to a negative tick count. -/
theorem getSSLSession_expiry_rule_overflow :
    ancientStore.get ((sampleCache true).getKey "a")
        = some { sessionData := [1, 10, 7, 7], addedTime := -9223372036854775808 }
    ∧ (sampleCache true).fbStringToSession [1, 10, 7, 7] = some sampleSession
    ∧ 0 < sampleSession.tlsext_ticklen
    ∧ 0 < sampleSession.tlsext_tick_lifetime_hint
    ∧ sampleSession.tlsext_tick_lifetime_hint
        ≤ Int.tdiv (100 - (-9223372036854775808)) (((sampleCache true).ticksPerSecond : Nat) : Int)
    ∧ ((sampleCache true).getSSLSession 100 "a" ancientStore).1 = some sampleSession := by
  decide

/-- Round trip with lifetime expiration disabled: a lookup right after a
store returns the handle deserialized from the serialized session. -/
theorem roundTrip_expiration_disabled (c : SSLSessionPersistentCacheBase K)
    (tStore tLookup : TimePoint) (hostname : String) (s : SSL_SESSION) (payload : FbString)
    (cache : PersistentCache K SSLSessionCacheData)
    (hoff : c.enableTicketLifetimeExpiration_ = false)
    (hser : c.sessionToFbString s = some payload) :
    (c.getSSLSession tLookup hostname (c.setSSLSession tStore hostname (some s) cache)).1
      = c.fbStringToSession payload :=
  getSSLSession_disabled c tLookup hostname _ _ hoff
    (setSSLSession_record c tStore hostname s payload cache hser)

/-- Claim C1. Round trip, evaluated with lifetime expiration enabled and the
clock held at tick 100 for both calls. The sample session serializes to
`[1, 10, 7, 7]`, which deserializes back to it, yet the lookup that follows
the store returns no session: the stored record carries the epoch as its
timestamp, so 100 seconds have elapsed against a hint of 10. -/
theorem roundTrip_lost_with_expiration_enabled :
    (sampleCache true).sessionToFbString sampleSession = some [1, 10, 7, 7]
    ∧ (sampleCache true).fbStringToSession [1, 10, 7, 7] = some sampleSession
    ∧ ((sampleCache true).getSSLSession 100 "a"
        ((sampleCache true).setSSLSession 100 "a" (some sampleSession) emptyStore)).1 = none := by
  decide

/-- Claim C2. Expiration boundary, evaluated for a store at tick `T = 100` of a
session with hint `L = 10`: the lookup at `T + L - 1` already returns no
session, as does the lookup at `T + L`. A record that does carry the
timestamp 100 is returned at `T + L - 1` and refused at `T + L`. -/
theorem expiration_boundary_after_store :
    ((sampleCache true).getSSLSession (100 + 10 - 1) "a"
        ((sampleCache true).setSSLSession 100 "a" (some sampleSession) emptyStore)).1 = none
    ∧ ((sampleCache true).getSSLSession (100 + 10) "a"
        ((sampleCache true).setSSLSession 100 "a" (some sampleSession) emptyStore)).1 = none
    ∧ ((sampleCache true).getSSLSession (100 + 10 - 1) "a" oneStore).1 = some sampleSession
    ∧ ((sampleCache true).getSSLSession (100 + 10) "a" oneStore).1 = none := by
  decide

/-- Claim C3. Record timestamp, evaluated for a store at tick 100: the record
left under the key has the serialized session as its payload, and the epoch
(tick 0), not the clock reading 100, as its `addedTime`. -/
theorem stored_record_after_store :
    ((sampleCache true).setSSLSession 100 "a" (some sampleSession) emptyStore).get
        ((sampleCache true).getKey "a")
      = some { sessionData := [1, 10, 7, 7], addedTime := 0 }
    ∧ (sampleCache true).sessionToFbString sampleSession = some [1, 10, 7, 7] := by
  decide

omit [DecidableEq K] in
theorem reconstructs_spec (c : SSLSessionPersistentCacheBase K) (payload : FbString)
    (hrec : c.reconstructs payload = true) :
    ∃ s, c.fbStringToSession payload = some s ∧ c.sessionToFbString s = some payload := by
  unfold reconstructs at hrec
  cases hs : c.fbStringToSession payload with
  | none => simp [hs] at hrec
  | some s =>
    refine ⟨s, rfl, ?_⟩
    simpa [hs] using hrec

/-- Claim C5. Overwrite. With lifetime expiration disabled, storing `s1` and
then `s2` under the same host name (both serializable, to `p1` and `p2`)
makes the lookup return the handle deserialized from `p2`. When `p1 ≠ p2`
and the codec reconstructs `p2` faithfully, that handle is not `s1`, and
(the codec reconstructing `p1` faithfully as well) it is not the handle
deserialized from `p1`. The backing store holds exactly one record under the
key, and its payload is `p2`. -/
theorem setSSLSession_overwrite (c : SSLSessionPersistentCacheBase K)
    (t1 t2 t3 : TimePoint) (hostname : String) (s1 s2 : SSL_SESSION) (p1 p2 : FbString)
    (cache : PersistentCache K SSLSessionCacheData)
    (hoff : c.enableTicketLifetimeExpiration_ = false)
    (hser1 : c.sessionToFbString s1 = some p1)
    (hser2 : c.sessionToFbString s2 = some p2) :
    (c.getSSLSession t3 hostname
        (c.setSSLSession t2 hostname (some s2)
          (c.setSSLSession t1 hostname (some s1) cache))).1 = c.fbStringToSession p2
    ∧ (p1 ≠ p2 → c.reconstructs p2 = true →
        (c.getSSLSession t3 hostname
          (c.setSSLSession t2 hostname (some s2)
            (c.setSSLSession t1 hostname (some s1) cache))).1 ≠ some s1
        ∧ (c.reconstructs p1 = true →
          (c.getSSLSession t3 hostname
            (c.setSSLSession t2 hostname (some s2)
              (c.setSSLSession t1 hostname (some s1) cache))).1 ≠ c.fbStringToSession p1))
    ∧ (c.setSSLSession t2 hostname (some s2)
        (c.setSSLSession t1 hostname (some s1) cache)).countKey (c.getKey hostname) = 1
    ∧ Option.map SSLSessionCacheData.sessionData
        ((c.setSSLSession t2 hostname (some s2)
          (c.setSSLSession t1 hostname (some s1) cache)).get (c.getKey hostname)) = some p2 := by
  have hget := roundTrip_expiration_disabled c t2 t3 hostname s2 p2
    (c.setSSLSession t1 hostname (some s1) cache) hoff hser2
  refine ⟨hget, ?_, ?_, ?_⟩
  · intro hne hrec2
    obtain ⟨r2, hd2, hr2⟩ := reconstructs_spec c p2 hrec2
    rw [hget, hd2]
    refine ⟨?_, ?_⟩
    · intro heq
      have hs : r2 = s1 := Option.some.inj heq
      rw [hs, hser1] at hr2
      exact hne (Option.some.inj hr2)
    · intro hrec1 heq
      obtain ⟨r1, hd1, hr1⟩ := reconstructs_spec c p1 hrec1
      rw [hd1] at heq
      have hs : r2 = r1 := Option.some.inj heq
      rw [hs, hr1] at hr2
      exact hne (Option.some.inj hr2)
  · rw [setSSLSession_serialized c t2 hostname s2 p2 _ hser2]
    exact PersistentCache.countKey_put _ _ _
  · rw [setSSLSession_record c t2 hostname s2 p2 _ hser2]
    rfl

/-- Witness for C5: two sample sessions stored for host `a`, one after the
other, into a store that already holds a record for `a`. -/
theorem setSSLSession_overwrite_witness :
    ((sampleCache false).getSSLSession 300 "a"
        ((sampleCache false).setSSLSession 200 "a" (some otherSession)
          ((sampleCache false).setSSLSession 100 "a" (some sampleSession) oneStore))).1
      = (sampleCache false).fbStringToSession [1, 10, 8]
    ∧ ((sampleCache false).getSSLSession 300 "a"
        ((sampleCache false).setSSLSession 200 "a" (some otherSession)
          ((sampleCache false).setSSLSession 100 "a" (some sampleSession) oneStore))).1
      ≠ some sampleSession :=
  ⟨(setSSLSession_overwrite (sampleCache false) 100 200 300 "a" sampleSession otherSession
      [1, 10, 7, 7] [1, 10, 8] oneStore rfl (by decide) (by decide)).1,
   ((setSSLSession_overwrite (sampleCache false) 100 200 300 "a" sampleSession otherSession
      [1, 10, 7, 7] [1, 10, 8] oneStore rfl (by decide) (by decide)).2.1
      (by decide) (by decide)).1⟩

/-- Claim C6. Eviction. If the backing store holds a record under the key of
`hostname`, `removeSSLSession` returns true and a lookup afterwards, at any
clock reading, returns no session. If it holds none, `removeSSLSession`
returns false and leaves the backing store exactly as it was. -/
theorem removeSSLSession_evicts (c : SSLSessionPersistentCacheBase K) (hostname : String)
    (cache : PersistentCache K SSLSessionCacheData) :
    (cache.get (c.getKey hostname) ≠ none →
      (c.removeSSLSession hostname cache).1 = true
      ∧ ∀ now : TimePoint,
          (c.getSSLSession now hostname (c.removeSSLSession hostname cache).2).1 = none)
    ∧ (cache.get (c.getKey hostname) = none →
      (c.removeSSLSession hostname cache).1 = false
      ∧ (c.removeSSLSession hostname cache).2 = cache) := by
  constructor
  · intro hsome
    constructor
    · simp only [removeSSLSession]
      rw [PersistentCache.remove_fst]
      cases hg : cache.get (c.getKey hostname) with
      | none => exact absurd hg hsome
      | some v => rfl
    · intro now
      exact getSSLSession_absent c now hostname _
        (PersistentCache.get_remove_self cache (c.getKey hostname))
  · intro hnone
    constructor
    · simp only [removeSSLSession]
      rw [PersistentCache.remove_fst, hnone]
      rfl
    · exact PersistentCache.remove_absent cache (c.getKey hostname) hnone

/-- Witness for C6: evicting host `a` from a store that holds it, and host
`b` from the same store, which does not hold it. -/
theorem removeSSLSession_evicts_witness :
    ((sampleCache true).removeSSLSession "a" oneStore).1 = true
    ∧ ((sampleCache true).getSSLSession 100 "a"
        ((sampleCache true).removeSSLSession "a" oneStore).2).1 = none
    ∧ ((sampleCache true).removeSSLSession "b" oneStore).1 = false
    ∧ ((sampleCache true).removeSSLSession "b" oneStore).2 = oneStore :=
  ⟨((removeSSLSession_evicts (sampleCache true) "a" oneStore).1 (by decide)).1,
   ((removeSSLSession_evicts (sampleCache true) "a" oneStore).1 (by decide)).2 100,
   ((removeSSLSession_evicts (sampleCache true) "b" oneStore).2 (by decide)).1,
   ((removeSSLSession_evicts (sampleCache true) "b" oneStore).2 (by decide)).2⟩

/-- Claim C7. Lookup is read-only. For every cache object (so every expiration
flag), clock reading, host name and backing store, `getSSLSession` leaves
the backing store exactly as it was. In particular, when a record is held
under the key and the lookup returns no session, the record is still held
afterwards, `size()` is unchanged and `removeSSLSession` afterwards returns
true. -/
theorem getSSLSession_readOnly (c : SSLSessionPersistentCacheBase K) (now : TimePoint)
    (hostname : String) (cache : PersistentCache K SSLSessionCacheData) :
    (c.getSSLSession now hostname cache).2 = cache
    ∧ ∀ value : SSLSessionCacheData,
        cache.get (c.getKey hostname) = some value →
        (c.getSSLSession now hostname cache).1 = none →
          (c.getSSLSession now hostname cache).2.get (c.getKey hostname) = some value
          ∧ c.size (c.getSSLSession now hostname cache).2 = c.size cache
          ∧ (c.removeSSLSession hostname (c.getSSLSession now hostname cache).2).1 = true := by
  refine ⟨getSSLSession_snd c now hostname cache, ?_⟩
  intro value hrec _
  rw [getSSLSession_snd c now hostname cache]
  refine ⟨hrec, rfl, ?_⟩
  simp only [removeSSLSession]
  rw [PersistentCache.remove_fst, hrec]
  rfl

/-- Witness for C7: the record written at tick 100 with a hint of ten
seconds is read at tick 110, where it is judged expired. -/
theorem getSSLSession_readOnly_witness :
    ((sampleCache true).getSSLSession 110 "a" oneStore).2.get ((sampleCache true).getKey "a")
        = some { sessionData := [1, 10, 7, 7], addedTime := 100 }
    ∧ (sampleCache true).size ((sampleCache true).getSSLSession 110 "a" oneStore).2
        = (sampleCache true).size oneStore
    ∧ ((sampleCache true).removeSSLSession "a"
        ((sampleCache true).getSSLSession 110 "a" oneStore).2).1 = true :=
  (getSSLSession_readOnly (sampleCache true) 110 "a" oneStore).2
    { sessionData := [1, 10, 7, 7], addedTime := 100 } (by decide) (by decide)

/-- Claim C8. No-op on absent session. `setSSLSession` with a null session
leaves the backing store exactly as it was: `size()` is the same, the record
under the key of the host name is the same, and a lookup of the host name
returns the same result as before. -/
theorem setSSLSession_null (c : SSLSessionPersistentCacheBase K) (now tLookup : TimePoint)
    (hostname : String) (cache : PersistentCache K SSLSessionCacheData) :
    c.setSSLSession now hostname none cache = cache
    ∧ c.size (c.setSSLSession now hostname none cache) = c.size cache
    ∧ (c.setSSLSession now hostname none cache).get (c.getKey hostname)
        = cache.get (c.getKey hostname)
    ∧ (c.getSSLSession tLookup hostname (c.setSSLSession now hostname none cache)).1
        = (c.getSSLSession tLookup hostname cache).1 :=
  ⟨rfl, rfl, rfl, rfl⟩

/-- Claim C9. Serialization failure is a silent no-op. When the codec yields
no payload for a present session, `setSSLSession` leaves the backing store
exactly as it was. More generally, for any session handle, either the
backing store is left as it was, or the session is present, the codec
serialized it to some payload, and the one write made is the `put` of that
payload under the key of the host name. -/
theorem setSSLSession_serialization_failure (c : SSLSessionPersistentCacheBase K)
    (now : TimePoint) (hostname : String)
    (cache : PersistentCache K SSLSessionCacheData) :
    (∀ s : SSL_SESSION, c.sessionToFbString s = none →
      c.setSSLSession now hostname (some s) cache = cache)
    ∧ ∀ session : SSLSessionPtr,
        c.setSSLSession now hostname session cache = cache
        ∨ ∃ s payload, session = some s ∧ c.sessionToFbString s = some payload
            ∧ c.setSSLSession now hostname session cache
                = cache.put (c.getKey hostname) (dataAtPut payload)
            ∧ Option.map SSLSessionCacheData.sessionData
                ((c.setSSLSession now hostname session cache).get (c.getKey hostname))
                = some payload := by
  constructor
  · intro s hfail
    simp [setSSLSession, hfail]
  · intro session
    cases session with
    | none => exact Or.inl rfl
    | some s =>
      cases hser : c.sessionToFbString s with
      | none => exact Or.inl (by simp [setSSLSession, hser])
      | some payload =>
        refine Or.inr ⟨s, payload, rfl, hser, ?_, ?_⟩
        · exact setSSLSession_serialized c now hostname s payload cache hser
        · rw [setSSLSession_record c now hostname s payload cache hser]
          rfl

/-- Witness for C9: a session that the sample codec refuses to serialize is
stored for host `a`, which already has a record. -/
theorem setSSLSession_serialization_failure_witness :
    (sampleCache true).sessionToFbString badSession = none
    ∧ (sampleCache true).setSSLSession 500 "a" (some badSession) oneStore = oneStore :=
  ⟨by decide,
   (setSSLSession_serialization_failure (sampleCache true) 500 "a" oneStore).1
     badSession (by decide)⟩

/-- Claim C10. Unaffected keys. Let `h1` and `h2` be host names whose derived
keys differ, and let the backing store have spare capacity. Then none of
`setSSLSession`, `getSSLSession` and `removeSSLSession` on `h1` changes the
record held under the key of `h2`, and a lookup of `h2` returns, at the same
clock reading, the same result after the operation as before it. -/
theorem other_key_unaffected (c : SSLSessionPersistentCacheBase K)
    (now tLookup : TimePoint) (h1 h2 : String) (session : SSLSessionPtr)
    (cache : PersistentCache K SSLSessionCacheData)
    (hkeys : c.getKey h1 ≠ c.getKey h2)
    (hroom : cache.size < cache.capacity) :
    ((c.setSSLSession now h1 session cache).get (c.getKey h2) = cache.get (c.getKey h2)
      ∧ (c.getSSLSession tLookup h2 (c.setSSLSession now h1 session cache)).1
          = (c.getSSLSession tLookup h2 cache).1)
    ∧ ((c.getSSLSession now h1 cache).2.get (c.getKey h2) = cache.get (c.getKey h2)
      ∧ (c.getSSLSession tLookup h2 (c.getSSLSession now h1 cache).2).1
          = (c.getSSLSession tLookup h2 cache).1)
    ∧ ((c.removeSSLSession h1 cache).2.get (c.getKey h2) = cache.get (c.getKey h2)
      ∧ (c.getSSLSession tLookup h2 (c.removeSSLSession h1 cache).2).1
          = (c.getSSLSession tLookup h2 cache).1) := by
  have hne : c.getKey h2 ≠ c.getKey h1 := fun h => hkeys h.symm
  have hset : (c.setSSLSession now h1 session cache).get (c.getKey h2)
      = cache.get (c.getKey h2) := by
    cases session with
    | none => rfl
    | some s =>
      cases hser : c.sessionToFbString s with
      | none => simp [setSSLSession, hser]
      | some payload =>
        rw [setSSLSession_serialized c now h1 s payload cache hser]
        exact PersistentCache.get_put_ne cache _ hne hroom
  have hrem : (c.removeSSLSession h1 cache).2.get (c.getKey h2) = cache.get (c.getKey h2) :=
    PersistentCache.get_remove_ne cache hne
  refine ⟨⟨hset, getSSLSession_congr c tLookup h2 cache _ hset⟩, ⟨?_, ?_⟩,
    ⟨hrem, getSSLSession_congr c tLookup h2 cache _ hrem⟩⟩
  · rw [getSSLSession_snd]
  · rw [getSSLSession_snd]

/-- Witness for C10: operations on host `b` against a store that holds a
record for host `a` and has room for three more. -/
theorem other_key_unaffected_witness :
    (((sampleCache true).setSSLSession 200 "b" (some otherSession) oneStore).get
          ((sampleCache true).getKey "a") = oneStore.get ((sampleCache true).getKey "a")
      ∧ ((sampleCache true).getSSLSession 105 "a"
          ((sampleCache true).setSSLSession 200 "b" (some otherSession) oneStore)).1
          = ((sampleCache true).getSSLSession 105 "a" oneStore).1)
    ∧ (((sampleCache true).getSSLSession 200 "b" oneStore).2.get
          ((sampleCache true).getKey "a") = oneStore.get ((sampleCache true).getKey "a")
      ∧ ((sampleCache true).getSSLSession 105 "a"
          ((sampleCache true).getSSLSession 200 "b" oneStore).2).1
          = ((sampleCache true).getSSLSession 105 "a" oneStore).1)
    ∧ (((sampleCache true).removeSSLSession "b" oneStore).2.get
          ((sampleCache true).getKey "a") = oneStore.get ((sampleCache true).getKey "a")
      ∧ ((sampleCache true).getSSLSession 105 "a"
          ((sampleCache true).removeSSLSession "b" oneStore).2).1
          = ((sampleCache true).getSSLSession 105 "a" oneStore).1) :=
  other_key_unaffected (sampleCache true) 200 105 "b" "a" (some otherSession) oneStore
    (by decide) (by decide)

/-- Claim C11. Deserialization failure degrades to a miss. When the backing
store holds a record under the key of `hostname` whose payload the codec
cannot deserialize, `getSSLSession` returns no session, for every cache
object (so every value of the expiration flag), every clock reading and
every timestamp of the record, and that is the value it returns once the
record has been removed, when no record exists for the host name. -/
theorem getSSLSession_undeserializable (c : SSLSessionPersistentCacheBase K)
    (now : TimePoint) (hostname : String) (cache : PersistentCache K SSLSessionCacheData)
    (value : SSLSessionCacheData)
    (hrec : cache.get (c.getKey hostname) = some value)
    (hbad : c.fbStringToSession value.sessionData = none) :
    (c.getSSLSession now hostname cache).1 = none
    ∧ (c.getSSLSession now hostname cache).1
        = (c.getSSLSession now hostname (c.removeSSLSession hostname cache).2).1 := by
  have hmiss : (c.getSSLSession now hostname cache).1 = none := by
    unfold getSSLSession
    simp only [hrec]
    split
    · exact hbad
    · rename_i s hs
      rw [hbad] at hs
      cases hs
  refine ⟨hmiss, ?_⟩
  rw [hmiss]
  exact (getSSLSession_absent c now hostname _
    (PersistentCache.get_remove_self cache (c.getKey hostname))).symm

/-- Witness for C11: a record with a one-byte payload, looked up with
expiration enabled. -/
theorem getSSLSession_undeserializable_witness :
    ((sampleCache true).getSSLSession 105 "a" brokenStore).1 = none
    ∧ ((sampleCache true).getSSLSession 105 "a" brokenStore).1
        = ((sampleCache true).getSSLSession 105 "a"
            ((sampleCache true).removeSSLSession "a" brokenStore).2).1 :=
  getSSLSession_undeserializable (sampleCache true) 105 "a" brokenStore
    { sessionData := [5], addedTime := 100 } (by decide) (by decide)

theorem tdiv_natCast_mono (a b : Int) (n : Nat) (hab : a ≤ b) :
    Int.tdiv a (n : Int) ≤ Int.tdiv b (n : Int) := by
  rcases Nat.eq_zero_or_pos n with hn | hn
  · subst hn
    simp
  · have hpos : (0 : Int) < (n : Int) := by exact_mod_cast hn
    have hnn : (0 : Int) ≤ (n : Int) := le_of_lt hpos
    by_cases ha : 0 ≤ a
    · have hb : 0 ≤ b := le_trans ha hab
      rw [Int.tdiv_eq_ediv ha hnn, Int.tdiv_eq_ediv hb hnn]
      exact Int.ediv_le_ediv hpos hab
    · have ha' : 0 ≤ -a := by omega
      have hneg : Int.tdiv a (n : Int) = -((-a) / (n : Int)) := by
        rw [← Int.tdiv_eq_ediv ha' hnn, Int.neg_tdiv, neg_neg]
      have hale : Int.tdiv a (n : Int) ≤ 0 := by
        rw [hneg]
        have := Int.ediv_nonneg ha' hnn
        omega
      by_cases hb : 0 ≤ b
      · exact le_trans hale (Int.tdiv_nonneg hb hnn)
      · have hb' : 0 ≤ -b := by omega
        have hnegb : Int.tdiv b (n : Int) = -((-b) / (n : Int)) := by
          rw [← Int.tdiv_eq_ediv hb' hnn, Int.neg_tdiv, neg_neg]
        rw [hneg, hnegb]
        have := Int.ediv_le_ediv hpos (show -b ≤ -a by omega)
        omega

theorem getSSLSession_miss_cases (c : SSLSessionPersistentCacheBase K) (t : TimePoint)
    (hostname : String) (cache : PersistentCache K SSLSessionCacheData)
    (value : SSLSessionCacheData)
    (hrec : cache.get (c.getKey hostname) = some value)
    (hmiss : (c.getSSLSession t hostname cache).1 = none) :
    c.fbStringToSession value.sessionData = none
    ∨ ∃ s, c.fbStringToSession value.sessionData = some s
        ∧ c.OPENSSL_TICKETS = true ∧ c.enableTicketLifetimeExpiration_ = true
        ∧ 0 < s.tlsext_ticklen ∧ 0 < s.tlsext_tick_lifetime_hint
        ∧ s.tlsext_tick_lifetime_hint ≤ c.secsBetween t value.addedTime := by
  cases hs : c.fbStringToSession value.sessionData with
  | none => exact Or.inl rfl
  | some s =>
    refine Or.inr ⟨s, rfl, ?_⟩
    have hcases := getSSLSession_expiry_cases c t hostname cache value s hrec hs
    by_cases htick : c.OPENSSL_TICKETS = true
    · by_cases hon : c.enableTicketLifetimeExpiration_ = true
      · by_cases hlen : 0 < s.tlsext_ticklen
        · by_cases hhint : 0 < s.tlsext_tick_lifetime_hint
          · exact ⟨htick, hon, hlen, hhint, (hcases.1 ⟨htick, hon, hlen, hhint⟩).mp hmiss⟩
          · have hhit := hcases.2 (Or.inr (Or.inr (Or.inr (Or.inl (not_lt.mp hhint)))))
            rw [hhit] at hmiss
            cases hmiss
        · have hhit := hcases.2 (Or.inr (Or.inr (Or.inl (Nat.eq_zero_of_not_pos hlen))))
          rw [hhit] at hmiss
          cases hmiss
      · have hhit := hcases.2 (Or.inr (Or.inl (Bool.eq_false_iff.mpr hon)))
        rw [hhit] at hmiss
        cases hmiss
    · have hhit := hcases.2 (Or.inl (Bool.eq_false_iff.mpr htick))
      rw [hhit] at hmiss
      cases hmiss

/-- Claim C13, as amended. Expiry is monotone in time. Fix a cache object, a
host name and a backing store, and let `t ≤ t2` be clock readings whose tick
difference from the timestamp of the record under the key (if there is one)
fits a signed 64-bit integer. If `getSSLSession` returns no session when the
clock reads `t`, it returns no session when the clock reads `t2`. -/
theorem getSSLSession_miss_mono (c : SSLSessionPersistentCacheBase K)
    (t t2 : TimePoint) (hostname : String) (cache : PersistentCache K SSLSessionCacheData)
    (hle : t ≤ t2)
    (hfit : ∀ value, cache.get (c.getKey hostname) = some value →
      fitsInt64 (t - value.addedTime) = true ∧ fitsInt64 (t2 - value.addedTime) = true)
    (hmiss : (c.getSSLSession t hostname cache).1 = none) :
    (c.getSSLSession t2 hostname cache).1 = none := by
  cases hrec : cache.get (c.getKey hostname) with
  | none => exact getSSLSession_absent c t2 hostname cache hrec
  | some value =>
    obtain ⟨hfit1, hfit2⟩ := hfit value hrec
    rcases getSSLSession_miss_cases c t hostname cache value hrec hmiss with hbad | hexp
    · unfold getSSLSession
      simp only [hrec]
      split
      · rename_i hnone
        exact hnone
      · rename_i s hs
        rw [hbad] at hs
        cases hs
    · obtain ⟨s, hs, htick, hon, hlen, hhint, hold⟩ := hexp
      have hcases := getSSLSession_expiry_cases c t2 hostname cache value s hrec hs
      apply (hcases.1 ⟨htick, hon, hlen, hhint⟩).mpr
      rw [secsBetween_of_fits c t value.addedTime hfit1] at hold
      rw [secsBetween_of_fits c t2 value.addedTime hfit2]
      exact le_trans hold
        (tdiv_natCast_mono _ _ c.ticksPerSecond (Int.sub_le_sub_right hle _))

/-- Witness for C13: the record written at tick 100 with a hint of ten
seconds is a miss at tick 110 and at tick 500. -/
theorem getSSLSession_miss_mono_witness :
    ((sampleCache true).getSSLSession 110 "a" oneStore).1 = none
    ∧ ((sampleCache true).getSSLSession 500 "a" oneStore).1 = none :=
  ⟨by decide,
   getSSLSession_miss_mono (sampleCache true) 110 500 "a" oneStore (by decide)
     (by
       intro value hrec
       have hval : value = { sessionData := [1, 10, 7, 7], addedTime := 100 } :=
         (Option.some.inj hrec).symm
       subst hval
       exact ⟨by decide, by decide⟩)
     (by decide)⟩

/-- Counterexample to C13 as stated. The record for host `a` is stamped 100
ticks after the least 64-bit timestamp and has a hint of ten seconds. With
expiration enabled the lookup returns no session when the clock reads 0, and
returns the session when the clock reads 200: there the 64-bit subtraction
wraps to a negative tick count. -/
theorem getSSLSession_miss_not_mono_overflow :
    (0 : TimePoint) ≤ 200
    ∧ ((sampleCache true).getSSLSession 0 "a" agedStore).1 = none
    ∧ ((sampleCache true).getSSLSession 200 "a" agedStore).1 = some sampleSession := by
  decide

/-- Claim C14. With lifetime expiration disabled, lookup is independent of
time. Take two runs of `getSSLSession` for the same host name, at any two
clock readings, on backing stores that hold the same payload under the key
(or both hold no record there), whatever the timestamps. Both return the
same result: no session when there is no record under the key, and the
handle deserialized from the payload otherwise. -/
theorem getSSLSession_time_independent (c : SSLSessionPersistentCacheBase K)
    (now1 now2 : TimePoint) (hostname : String)
    (cache1 cache2 : PersistentCache K SSLSessionCacheData)
    (hoff : c.enableTicketLifetimeExpiration_ = false)
    (hsame : Option.map SSLSessionCacheData.sessionData (cache1.get (c.getKey hostname))
      = Option.map SSLSessionCacheData.sessionData (cache2.get (c.getKey hostname))) :
    (c.getSSLSession now1 hostname cache1).1 = (c.getSSLSession now2 hostname cache2).1
    ∧ (cache1.get (c.getKey hostname) = none →
        (c.getSSLSession now1 hostname cache1).1 = none)
    ∧ (∀ value, cache1.get (c.getKey hostname) = some value →
        (c.getSSLSession now1 hostname cache1).1 = c.fbStringToSession value.sessionData) := by
  refine ⟨?_, fun hnone => getSSLSession_absent c now1 hostname cache1 hnone,
    fun value hrec => getSSLSession_disabled c now1 hostname cache1 value hoff hrec⟩
  cases h1 : cache1.get (c.getKey hostname) with
  | none =>
    cases h2 : cache2.get (c.getKey hostname) with
    | none =>
      rw [getSSLSession_absent c now1 hostname cache1 h1,
        getSSLSession_absent c now2 hostname cache2 h2]
    | some v2 =>
      rw [h1, h2] at hsame
      cases hsame
  | some v1 =>
    cases h2 : cache2.get (c.getKey hostname) with
    | none =>
      rw [h1, h2] at hsame
      cases hsame
    | some v2 =>
      rw [h1, h2] at hsame
      have hpay : v1.sessionData = v2.sessionData := Option.some.inj hsame
      rw [getSSLSession_disabled c now1 hostname cache1 v1 hoff h1,
        getSSLSession_disabled c now2 hostname cache2 v2 hoff h2, hpay]

/-- Witness for C14: the same payload under host `a` with timestamps 100 and
999, read at ticks 5 and 5000. -/
theorem getSSLSession_time_independent_witness :
    ((sampleCache false).getSSLSession 5 "a" oneStore).1
        = ((sampleCache false).getSSLSession 5000 "a" retimedStore).1
    ∧ ((sampleCache false).getSSLSession 5 "a" oneStore).1
        = (sampleCache false).fbStringToSession [1, 10, 7, 7] :=
  ⟨(getSSLSession_time_independent (sampleCache false) 5 5000 "a" oneStore retimedStore
      rfl (by decide)).1,
   (getSSLSession_time_independent (sampleCache false) 5 5000 "a" oneStore retimedStore
      rfl (by decide)).2.2 { sessionData := [1, 10, 7, 7], addedTime := 100 } (by decide)⟩

theorem lookup_mem {V : Type} (es : List (K × V)) (k : K) (v : V)
    (hget : List.lookup k es = some v) : (k, v) ∈ es := by
  induction es with
  | nil => cases hget
  | cons e es ih =>
    obtain ⟨a, b⟩ := e
    by_cases hk : k = a
    · subst hk
      rw [PersistentCache.lookup_cons_self] at hget
      cases hget
      exact List.mem_cons_self _ _
    · rw [PersistentCache.lookup_cons_ne b es hk] at hget
      exact List.mem_cons_of_mem _ (ih hget)

theorem mem_keys_iff_lookup {V : Type} (es : List (K × V)) (k : K) :
    k ∈ es.map Prod.fst ↔ List.lookup k es ≠ none := by
  induction es with
  | nil => simp
  | cons e es ih =>
    obtain ⟨a, b⟩ := e
    by_cases hk : k = a
    · subst hk
      rw [PersistentCache.lookup_cons_self]
      simp
    · rw [PersistentCache.lookup_cons_ne b es hk, List.map_cons, List.mem_cons, ← ih]
      constructor
      · rintro (h | h)
        · exact absurd h hk
        · exact h
      · intro h
        exact Or.inr h

omit [DecidableEq K] in
theorem storeInv_empty (c : SSLSessionPersistentCacheBase K) (capacity : Nat) :
    c.StoreInv { capacity := capacity, entries := [] } := by
  refine ⟨List.nodup_nil, ?_⟩
  intro e he
  cases he

theorem storeInv_put (c : SSLSessionPersistentCacheBase K)
    (cache : PersistentCache K SSLSessionCacheData) (hostname : String) (s : SSL_SESSION)
    (payload : FbString) (hser : c.sessionToFbString s = some payload)
    (hinv : c.StoreInv cache) :
    c.StoreInv (cache.put (c.getKey hostname) (dataAtPut payload)) := by
  obtain ⟨hnodup, hall⟩ := hinv
  have hsub : List.Sublist
      ((cache.entries.filter (fun e => !(e.1 == c.getKey hostname))).take (cache.capacity - 1))
      cache.entries :=
    (List.take_sublist _ _).trans (List.filter_sublist _)
  have hsubf : List.Sublist
      ((cache.entries.filter (fun e => !(e.1 == c.getKey hostname))).take (cache.capacity - 1))
      (cache.entries.filter (fun e => !(e.1 == c.getKey hostname))) :=
    List.take_sublist _ _
  constructor
  · simp only [PersistentCache.put, List.map_cons]
    refine List.nodup_cons.mpr ⟨?_, hnodup.sublist (hsub.map Prod.fst)⟩
    intro hmem
    obtain ⟨e, he, hfst⟩ := List.mem_map.mp hmem
    have hef := (List.mem_filter.mp (hsubf.subset he)).2
    simp [hfst] at hef
  · intro e he
    simp only [PersistentCache.put] at he
    rcases List.mem_cons.mp he with h | h
    · subst h
      exact ⟨⟨hostname, rfl⟩, ⟨s, hser⟩⟩
    · exact hall e (hsub.subset h)

theorem storeInv_remove (c : SSLSessionPersistentCacheBase K)
    (cache : PersistentCache K SSLSessionCacheData) (key : K)
    (hinv : c.StoreInv cache) :
    c.StoreInv (cache.remove key).2 := by
  obtain ⟨hnodup, hall⟩ := hinv
  have hsub : List.Sublist (cache.entries.filter (fun e => !(e.1 == key))) cache.entries :=
    List.filter_sublist _
  exact ⟨hnodup.sublist (hsub.map Prod.fst), fun e he => hall e (hsub.subset he)⟩

theorem storeInv_applyCall (c : SSLSessionPersistentCacheBase K) (call : Call)
    (cache : PersistentCache K SSLSessionCacheData) (hinv : c.StoreInv cache) :
    c.StoreInv (c.applyCall call cache) := by
  cases call with
  | store now hostname session =>
    simp only [applyCall]
    cases session with
    | none => exact hinv
    | some s =>
      cases hser : c.sessionToFbString s with
      | none =>
        have hsame : c.setSSLSession now hostname (some s) cache = cache := by
          simp [setSSLSession, hser]
        rw [hsame]
        exact hinv
      | some payload =>
        rw [setSSLSession_serialized c now hostname s payload cache hser]
        exact storeInv_put c cache hostname s payload hser hinv
  | lookup now hostname =>
    simp only [applyCall]
    rw [getSSLSession_snd]
    exact hinv
  | evict hostname =>
    simp only [applyCall, removeSSLSession]
    exact storeInv_remove c cache _ hinv

theorem storeInv_runCalls (c : SSLSessionPersistentCacheBase K) (calls : List Call)
    (cache : PersistentCache K SSLSessionCacheData) (hinv : c.StoreInv cache) :
    c.StoreInv (c.runCalls calls cache) := by
  induction calls generalizing cache with
  | nil => exact hinv
  | cons call calls ih =>
    simp only [runCalls, List.foldl_cons]
    exact ih _ (storeInv_applyCall c call cache hinv)

theorem resolves_iff_mem_keys (c : SSLSessionPersistentCacheBase K) (now : TimePoint)
    (hostname : String) (cache : PersistentCache K SSLSessionCacheData)
    (hcodec : ∀ s payload, c.sessionToFbString s = some payload →
      c.fbStringToSession payload ≠ none)
    (hinv : c.StoreInv cache) :
    c.resolves now hostname cache = true ↔ c.getKey hostname ∈ cache.entries.map Prod.fst := by
  rw [mem_keys_iff_lookup]
  unfold resolves
  cases hrec : cache.get (c.getKey hostname) with
  | none =>
    have hmiss := getSSLSession_absent c.ignoringExpiration now hostname cache hrec
    have hlook : List.lookup (c.getKey hostname) cache.entries = none := hrec
    rw [hmiss, hlook]
    simp
  | some value =>
    have hval := getSSLSession_disabled c.ignoringExpiration now hostname cache value rfl hrec
    have hlook : List.lookup (c.getKey hostname) cache.entries = some value := hrec
    obtain ⟨s, hs⟩ := (hinv.2 _ (lookup_mem cache.entries _ value hlook)).2
    have hsome : c.fbStringToSession value.sessionData ≠ none := hcodec s _ hs
    rw [hval, hlook]
    simp only [ignoringExpiration]
    cases hd : c.fbStringToSession value.sessionData with
    | none => exact absurd hd hsome
    | some r => simp

theorem sampleCodec_deserializes (s : SSL_SESSION) (payload : FbString)
    (hser : (sampleCache true).sessionToFbString s = some payload) :
    (sampleCache true).fbStringToSession payload ≠ none := by
  simp only [sampleCache, sampleSerialize] at hser
  split at hser
  · cases hser
  · cases hser
    simp [sampleCache, sampleDeserialize]

/-- Claim C12. Size consistency. Take any sequence of `setSSLSession`,
`getSSLSession` and `removeSSLSession` calls made on an empty backing store
of any capacity, with a codec that can deserialize every payload it
produces. In the store the calls leave, `size()` is the backing store's own
record count, and it equals the number of keys (of host names) for which a
lookup ignoring expiration returns a present session. -/
theorem size_consistency (c : SSLSessionPersistentCacheBase K) (capacity : Nat)
    (calls : List Call) (now : TimePoint)
    (hcodec : ∀ s payload, c.sessionToFbString s = some payload →
      c.fbStringToSession payload ≠ none) :
    c.size (c.runCalls calls { capacity := capacity, entries := [] })
      = (c.runCalls calls { capacity := capacity, entries := [] }).size
    ∧ Set.ncard {key : K | ∃ hostname, c.getKey hostname = key
          ∧ c.resolves now hostname
              (c.runCalls calls { capacity := capacity, entries := [] }) = true}
      = c.size (c.runCalls calls { capacity := capacity, entries := [] }) := by
  refine ⟨rfl, ?_⟩
  have hinv := storeInv_runCalls c calls _ (storeInv_empty c capacity)
  generalize c.runCalls calls { capacity := capacity, entries := [] } = cache at hinv ⊢
  have hset : {key : K | ∃ hostname, c.getKey hostname = key
        ∧ c.resolves now hostname cache = true}
      = ((cache.entries.map Prod.fst).toFinset : Set K) := by
    ext key
    simp only [Set.mem_setOf_eq, List.coe_toFinset]
    constructor
    · rintro ⟨hostname, hkey, hres⟩
      rw [← hkey]
      exact (resolves_iff_mem_keys c now hostname cache hcodec hinv).mp hres
    · intro hmem
      obtain ⟨e, he, hfst⟩ := List.mem_map.mp hmem
      obtain ⟨⟨hostname, hkey⟩, _⟩ := hinv.2 e he
      refine ⟨hostname, hkey.trans hfst, ?_⟩
      apply (resolves_iff_mem_keys c now hostname cache hcodec hinv).mpr
      rw [hkey.trans hfst]
      exact hmem
  rw [hset, Set.ncard_coe_Finset, List.toFinset_card_of_nodup hinv.1, List.length_map]
  rfl

/-- Witness for C12: the sample calls made on the empty sample store, whose
codec deserializes whatever it serializes. -/
theorem size_consistency_witness :
    (sampleCache true).size ((sampleCache true).runCalls sampleCalls emptyStore)
      = ((sampleCache true).runCalls sampleCalls emptyStore).size
    ∧ Set.ncard {key : String | ∃ hostname, (sampleCache true).getKey hostname = key
          ∧ (sampleCache true).resolves 0 hostname
              ((sampleCache true).runCalls sampleCalls emptyStore) = true}
      = (sampleCache true).size ((sampleCache true).runCalls sampleCalls emptyStore) :=
  size_consistency (sampleCache true) 4 sampleCalls 0 sampleCodec_deserializes

end SSLSessionPersistentCacheBase

end wangle
